import Mathlib

/-!
Verification of the procedural terrain/task generation engine of
examples/design_search/tasks.py (RoboGrammar).

Modelling conventions:
* All floating-point arithmetic is modelled over `ℚ` (every IEEE double is a
  rational; the idealized real-arithmetic semantics is what the spec's
  properties are about).
* `numpy.random.RandomState(seed)` is modelled by an abstract deterministic
  draw family `g : GaussFam`: `g seed i` is the i-th standard-normal draw
  produced by the stream seeded with `seed`.  Every statement is proved for
  every such family, so in particular for the one numpy implements.
  A call `rng.normal(loc, scale, size=n)` consumes draws `i, i+1, …, i+n-1`
  of the stream (where `i` is the number of draws made so far) and returns
  `loc + scale * g seed j` componentwise.
* The simulator handle (`pyrobotdesign`) is external: terrain generation is
  modelled by the ordered list of `(prop, placement)` insertions that
  `add_terrain` performs, and perturbation by the list of
  `(body, link, force, torque)` applications that `add_noise` performs
  (`none` when the `assert` fails and nothing is applied).
-/

/-- The family of standard-normal draws: `g seed i` is the i-th draw of the
stream `np.random.RandomState(seed)`. -/
def GaussFam : Type := ℤ → ℕ → ℚ

/-- The draw family with every draw 0: a concrete instance used to evaluate
statements on closed inputs. -/
def gaussZero : GaussFam := fun _ _ => 0

/-- State of a `np.random.RandomState`: its seed and how many draws were made. -/
structure RandomState where
  seed : ℤ
  idx : ℕ
deriving DecidableEq

/-- Model of `np.random.RandomState(seed)`: a fresh stream, no draws yet. -/
def RandomState.create (seed : ℤ) : RandomState := ⟨seed, 0⟩

/-- Model of `rng.normal(loc, scale)`: one scalar draw, advancing the stream. -/
def RandomState.normal (g : GaussFam) (s : RandomState) (loc scale : ℚ) :
    ℚ × RandomState :=
  (loc + scale * g s.seed s.idx, ⟨s.seed, s.idx + 1⟩)

/-- Model of `rng.normal(loc, scale, size=n)`: n scalar draws in order,
advancing the stream by n. -/
def RandomState.normalN (g : GaussFam) (s : RandomState) (loc scale : ℚ)
    (n : ℕ) : List ℚ × RandomState :=
  ((List.range n).map fun j => loc + scale * g s.seed (s.idx + j),
    ⟨s.seed, s.idx + n⟩)

/-- Number of elements of `np.arange(start, stop, step)` for positive step:
`max 0 ⌈(stop-start)/step⌉`. -/
def arangeLen (start stop step : ℚ) : ℕ := (⌈(stop - start) / step⌉).toNat

/-- Model of `np.arange(start, stop, step)`. -/
def arange (start stop step : ℚ) : List ℚ :=
  (List.range (arangeLen start stop step)).map fun (k : ℕ) =>
    start + (k : ℚ) * step

/-- Model of `np.linspace(start, stop, num)` (endpoint included). -/
def linspace (start stop : ℚ) (num : ℕ) : List ℚ :=
  (List.range num).map fun (i : ℕ) =>
    start + (stop - start) * (i : ℚ) / ((num : ℚ) - 1)

/-- Model of `np.clip(x, lo, hi)`. -/
def clip (x lo hi : ℚ) : ℚ := min (max x lo) hi

/-- Model of `rd.Quaterniond(w, x, y, z)`. -/
structure Quaterniond where
  w : ℚ
  x : ℚ
  y : ℚ
  z : ℚ
deriving DecidableEq

/-- The identity orientation `rd.Quaterniond(1.0, 0.0, 0.0, 0.0)`. -/
def identityQuat : Quaterniond := ⟨1, 0, 0, 0⟩

/-- Model of the static geometry primitives the engine inserts:
`rd.Prop(rd.PropShape.BOX, density, friction, half_extents)` (with the
optional `color` attribute) and `rd.HeightfieldProp(friction, scale, grid)`.
(`Prop` is a reserved word in Lean, hence `SceneProp`.) -/
inductive SceneProp where
  | box (density friction : ℚ) (half_extents : List ℚ) (color : Option (List ℚ))
  | heightfield (friction : ℚ) (mesh_scale : List ℚ) (heights : List (List ℚ))
deriving DecidableEq

/-- Half-extents of a BOX prop (and `[]` for a height field). -/
def SceneProp.boxHalfExtents : SceneProp → List ℚ
  | .box _ _ he _ => he
  | .heightfield _ _ _ => []

/-- Friction coefficient of a prop. -/
def SceneProp.frictionOf : SceneProp → ℚ
  | .box _ f _ _ => f
  | .heightfield f _ _ => f

/-- Half-width of a BOX prop along x. -/
def SceneProp.halfX (p : SceneProp) : ℚ := p.boxHalfExtents.getD 0 0

/-- Position + orientation at which a prop is inserted (one `sim.add_prop`
call). -/
structure Placement where
  pos : List ℚ
  rot : Quaterniond
deriving DecidableEq

/-- The y coordinate of a layout entry's placement. -/
def posY (e : SceneProp × Placement) : ℚ := e.2.pos.getD 1 0

/-- The x coordinate of a layout entry's placement. -/
def posX (e : SceneProp × Placement) : ℚ := e.2.pos.getD 0 0

/-- Model of `rd.DotProductObjective()` with its three weight vectors. -/
structure DotProductObjective where
  base_dir_weight : List ℚ
  base_up_weight : List ℚ
  base_vel_weight : List ℚ
deriving DecidableEq

/-- The keyword arguments of `ForwardSpeedTask.__init__`, with the source's
default values. -/
structure TaskConfig where
  time_step : ℚ := 1 / 240
  discount_factor : ℚ := 99 / 100
  interval : ℕ := 16
  horizon : ℕ := 16
  episode_len : ℕ := 128
  noise_seed : ℤ := 0
  force_std : ℚ := 10
  torque_std : ℚ := 0
deriving DecidableEq

/-- The state `ForwardSpeedTask.__init__` leaves behind. -/
structure ForwardSpeedTask where
  time_step : ℚ
  discount_factor : ℚ
  interval : ℕ
  horizon : ℕ
  episode_len : ℕ
  noise_seed : ℤ
  force_std : ℚ
  torque_std : ℚ
  objective_fn : DotProductObjective
  result_bound : ℚ
deriving DecidableEq

/-- `ForwardSpeedTask.__init__`: copies the keyword arguments, builds the
objective weights and sets `result_bound = 10.0` (not a parameter). -/
def mkForwardSpeedTask (cfg : TaskConfig) : ForwardSpeedTask where
  time_step := cfg.time_step
  discount_factor := cfg.discount_factor
  interval := cfg.interval
  horizon := cfg.horizon
  episode_len := cfg.episode_len
  noise_seed := cfg.noise_seed
  force_std := cfg.force_std
  torque_std := cfg.torque_std
  objective_fn :=
    { base_dir_weight := [-2, 0, 0]
      base_up_weight := [0, 2, 0]
      base_vel_weight := [2, 0, 0] }
  result_bound := 10

/-- `ForwardSpeedTask.get_objective_fn`. -/
def ForwardSpeedTask.get_objective_fn (t : ForwardSpeedTask) :
    DotProductObjective :=
  t.objective_fn

/-- Model of `ForwardSpeedTask.add_noise(sim, time_step_idx)`.
`robot_count` stands for `sim.get_robot_count()`.  The result is the list of
`sim.add_link_force_torque(body, link, force, torque)` calls made, or `none`
when the `assert sim.get_robot_count() == 1` fails (in which case no force or
torque is applied). -/
def ForwardSpeedTask.add_noise (g : GaussFam) (t : ForwardSpeedTask)
    (robot_count : ℕ) (time_step_idx : ℕ) :
    Option (List (ℕ × ℕ × List ℚ × List ℚ)) :=
  if robot_count = 1 then
    let noise_rng := RandomState.create (t.noise_seed + time_step_idx)
    let force := noise_rng.normalN g 0 t.force_std 3
    let torque := force.2.normalN g 0 t.torque_std 3
    some [(0, 0, force.1, torque.1)]
  else
    none

/-- The state `FlatTerrainTask.__init__` leaves behind. -/
structure FlatTerrainTask where
  base : ForwardSpeedTask
  floor : SceneProp
deriving DecidableEq

/-- `FlatTerrainTask.__init__`. -/
def mkFlatTerrainTask (cfg : TaskConfig) : FlatTerrainTask where
  base := mkForwardSpeedTask cfg
  floor := .box 0 (1/2) [40, 1, 10] none

/-- `FlatTerrainTask.add_terrain(sim)`: the ordered list of
`sim.add_prop(prop, position, orientation)` insertions it makes. -/
def FlatTerrainTask.add_terrain (t : FlatTerrainTask) :
    List (SceneProp × Placement) :=
  [(t.floor, ⟨[0, -1, 0], ⟨1, 0, 0, 0⟩⟩)]

/-- The state `FrozenLakeTask.__init__` leaves behind (the floor is built
with friction 0.05 and then given the color `[0.8, 0.9, 1.0]`). -/
structure FrozenLakeTask where
  base : ForwardSpeedTask
  floor : SceneProp
deriving DecidableEq

/-- `FrozenLakeTask.__init__`. -/
def mkFrozenLakeTask (cfg : TaskConfig) : FrozenLakeTask where
  base := mkForwardSpeedTask cfg
  floor := .box 0 (1/20) [20, 1, 10] (some [4/5, 9/10, 1])

/-- `FrozenLakeTask.add_terrain(sim)`. -/
def FrozenLakeTask.add_terrain (t : FrozenLakeTask) :
    List (SceneProp × Placement) :=
  [(t.floor, ⟨[0, -1, 0], ⟨1, 0, 0, 0⟩⟩)]

/-- The state `RidgedTerrainTask.__init__` leaves behind. -/
structure RidgedTerrainTask where
  base : ForwardSpeedTask
  seed : ℤ
  floor : SceneProp
  bump : SceneProp
deriving DecidableEq

/-- `RidgedTerrainTask.__init__`. -/
def mkRidgedTerrainTask (seed : ℤ) (cfg : TaskConfig) : RidgedTerrainTask where
  base := mkForwardSpeedTask cfg
  seed := seed
  floor := .box 0 (1/2) [20, 1, 10] none
  bump := .box 0 (1/2) [1/10, 1/5, 10] none

/-- `RidgedTerrainTask.add_terrain(sim)`: reseeds a stream from `seed`, then
places the floor and 20 bumps; bump `i` draws one scalar
`rng.normal(0.5, 0.1)` (draw index `i` of the fresh stream). -/
def RidgedTerrainTask.add_terrain (g : GaussFam) (t : RidgedTerrainTask) :
    List (SceneProp × Placement) :=
  (t.floor, ⟨[0, -1, 0], ⟨1, 0, 0, 0⟩⟩) ::
    (List.range 20).map fun i =>
      (t.bump,
        ⟨[(1/2 + 1/10 * g t.seed i) + (i : ℚ), -1/5 + 1/50 * ((i : ℚ) + 1), 0],
          ⟨1, 0, 0, 0⟩⟩)

namespace GapTerrainTask

/-- Local `gap_centers` of `GapTerrainTask.__init__`:
`np.arange(0.5, x_max, 1.0)` plus one vector of `Normal(0, 0.1)` draws from
the fresh stream seeded with `seed`. -/
def gap_centers (g : GaussFam) (seed : ℤ) (x_max : ℚ) : List ℚ :=
  List.zipWith (fun c e => c + e) (arange (1/2) x_max 1)
    ((RandomState.create seed).normalN g 0 (1/10)
      (arange (1/2) x_max 1).length).1

/-- Local `gap_widths` of `GapTerrainTask.__init__`:
`np.linspace(0.1, 0.5, num=len(gap_centers))`. -/
def gap_widths (x_max : ℚ) : List ℚ :=
  linspace (1/10) (1/2) (arange (1/2) x_max 1).length

/-- Local `platform_x_min` of `GapTerrainTask.__init__`:
`np.concatenate(([x_min], gap_centers + 0.5 * gap_widths))`. -/
def platform_x_min (g : GaussFam) (seed : ℤ) (x_min x_max : ℚ) : List ℚ :=
  x_min ::
    List.zipWith (fun c w => c + (1/2) * w) (gap_centers g seed x_max)
      (gap_widths x_max)

/-- Local `platform_x_max` of `GapTerrainTask.__init__`:
`np.concatenate((gap_centers - 0.5 * gap_widths, [x_max]))`. -/
def platform_x_max (g : GaussFam) (seed : ℤ) (x_max : ℚ) : List ℚ :=
  List.zipWith (fun c w => c - (1/2) * w) (gap_centers g seed x_max)
      (gap_widths x_max) ++ [x_max]

end GapTerrainTask

/-- The state `GapTerrainTask.__init__` leaves behind. -/
structure GapTerrainTask where
  base : ForwardSpeedTask
  seed : ℤ
  platform_x : List ℚ
  platforms : List SceneProp
  floor_x : ℚ
  floor : SceneProp
deriving DecidableEq

/-- `GapTerrainTask.__init__(x_min, x_max, seed, **kwargs)`. -/
def mkGapTerrainTask (g : GaussFam) (x_min x_max : ℚ) (seed : ℤ)
    (cfg : TaskConfig) : GapTerrainTask where
  base := mkForwardSpeedTask cfg
  seed := seed
  platform_x :=
    List.zipWith (fun mn mx => (1/2) * (mn + mx))
      (GapTerrainTask.platform_x_min g seed x_min x_max)
      (GapTerrainTask.platform_x_max g seed x_max)
  platforms :=
    (List.zipWith (fun mn mx => (1/2) * (mx - mn))
        (GapTerrainTask.platform_x_min g seed x_min x_max)
        (GapTerrainTask.platform_x_max g seed x_max)).map
      fun half_width => .box 0 (1/2) [half_width, 1, 10] none
  floor_x := (1/2) * (x_min + x_max)
  floor := .box 0 (1/2) [(1/2) * (x_max - x_min), 1, 10] none

/-- The loop of `GapTerrainTask.add_terrain`: iteration `i` places platform
`i` at `y = -1 + rng.normal(0, 0.01*i)` (one scalar draw, index `i` of the
stream freshly seeded at the start of the call). -/
def gapLoop (g : GaussFam) (seed : ℤ) :
    List (ℚ × SceneProp) → ℕ → List (SceneProp × Placement)
  | [], _ => []
  | (x, p) :: rest, i =>
      (p, ⟨[x, -1 + (1/100 * (i : ℚ)) * g seed i, 0], ⟨1, 0, 0, 0⟩⟩) ::
        gapLoop g seed rest (i + 1)

/-- `GapTerrainTask.add_terrain(sim)`: reseeds a stream from `seed`, places
every platform with per-platform y jitter, then the full-span floor one unit
lower. -/
def GapTerrainTask.add_terrain (g : GaussFam) (t : GapTerrainTask) :
    List (SceneProp × Placement) :=
  gapLoop g t.seed (t.platform_x.zip t.platforms) 0 ++
    [(t.floor, ⟨[t.floor_x, -2, 0], ⟨1, 0, 0, 0⟩⟩)]

namespace SteppedTerrainTask

/-- Local `edge_x` of `SteppedTerrainTask.__init__`:
`np.arange(0.0, x_max, 0.5)` plus one vector of `Normal(0, 0.1)` draws from
the fresh stream seeded with `seed`. -/
def edge_x (g : GaussFam) (seed : ℤ) (x_max : ℚ) : List ℚ :=
  List.zipWith (fun c e => c + e) (arange 0 x_max (1/2))
    ((RandomState.create seed).normalN g 0 (1/10)
      (arange 0 x_max (1/2)).length).1

/-- Local `platform_x_min` of `SteppedTerrainTask.__init__`. -/
def platform_x_min (g : GaussFam) (seed : ℤ) (x_min x_max : ℚ) : List ℚ :=
  x_min :: edge_x g seed x_max

/-- Local `platform_x_max` of `SteppedTerrainTask.__init__`. -/
def platform_x_max (g : GaussFam) (seed : ℤ) (x_max : ℚ) : List ℚ :=
  edge_x g seed x_max ++ [x_max]

end SteppedTerrainTask

/-- The state `SteppedTerrainTask.__init__` leaves behind. -/
structure SteppedTerrainTask where
  base : ForwardSpeedTask
  seed : ℤ
  platform_x : List ℚ
  platforms : List SceneProp
deriving DecidableEq

/-- `SteppedTerrainTask.__init__(x_min, x_max, seed, **kwargs)`. -/
def mkSteppedTerrainTask (g : GaussFam) (x_min x_max : ℚ) (seed : ℤ)
    (cfg : TaskConfig) : SteppedTerrainTask where
  base := mkForwardSpeedTask cfg
  seed := seed
  platform_x :=
    List.zipWith (fun mn mx => (1/2) * (mn + mx))
      (SteppedTerrainTask.platform_x_min g seed x_min x_max)
      (SteppedTerrainTask.platform_x_max g seed x_max)
  platforms :=
    (List.zipWith (fun mn mx => (1/2) * (mx - mn))
        (SteppedTerrainTask.platform_x_min g seed x_min x_max)
        (SteppedTerrainTask.platform_x_max g seed x_max)).map
      fun half_width => .box 0 (1/2) [half_width, 1, 10] none

/-- The loop of `SteppedTerrainTask.add_terrain`: iteration `i` places
platform `i` at the running height `y`, then advances
`y += rng.normal(0, min(0.015*i, 0.1))` (one scalar draw, index `i` of the
stream freshly seeded at the start of the call). -/
def steppedLoop (g : GaussFam) (seed : ℤ) :
    List (ℚ × SceneProp) → ℕ → ℚ → List (SceneProp × Placement)
  | [], _, _ => []
  | (x, p) :: rest, i, y =>
      (p, ⟨[x, y, 0], ⟨1, 0, 0, 0⟩⟩) ::
        steppedLoop g seed rest (i + 1)
          (y + (0 + min (3/200 * (i : ℚ)) (1/10) * g seed i))

/-- `SteppedTerrainTask.add_terrain(sim)`: reseeds a stream from `seed` and
runs the placement loop starting at `y = -1`. -/
def SteppedTerrainTask.add_terrain (g : GaussFam) (t : SteppedTerrainTask) :
    List (SceneProp × Placement) :=
  steppedLoop g t.seed (t.platform_x.zip t.platforms) 0 (-1)

/-- The height grid of `HillTerrainTask.__init__`:
`np.clip(rng.normal(0.5, 0.125, size=(97, 33)), 0.0, 1.0)`, the (i, j) cell
consuming draw `33*i + j` of the fresh stream (C order). -/
def hillHeights (g : GaussFam) (seed : ℤ) : List (List ℚ) :=
  (List.range 97).map fun i =>
    (List.range 33).map fun j =>
      clip (1/2 + 1/8 * g seed (33 * i + j)) 0 1

/-- The state `HillTerrainTask.__init__` leaves behind. -/
structure HillTerrainTask where
  base : ForwardSpeedTask
  seed : ℤ
  heightfield : SceneProp
deriving DecidableEq

/-- `HillTerrainTask.__init__(seed, **kwargs)`. -/
def mkHillTerrainTask (g : GaussFam) (seed : ℤ) (cfg : TaskConfig) :
    HillTerrainTask where
  base := mkForwardSpeedTask cfg
  seed := seed
  heightfield := .heightfield (1/2) [30, 1/4, 10] (hillHeights g seed)

/-- `HillTerrainTask.add_terrain(sim)`: inserts the stored height-field
primitive at `[20.0, -0.25, 0.0]`, drawing nothing. -/
def HillTerrainTask.add_terrain (t : HillTerrainTask) :
    List (SceneProp × Placement) :=
  [(t.heightfield, ⟨[20, -1/4, 0], ⟨1, 0, 0, 0⟩⟩)]

/-- The closed x-intervals `[x - half_width, x + half_width]` occupied by a
list of platforms placed at the given x coordinates. -/
def platformIntervals (platform_x : List ℚ) (platforms : List SceneProp) :
    List (ℚ × ℚ) :=
  List.zipWith (fun x p => (x - p.halfX, x + p.halfX)) platform_x platforms

/-- Index form of the i-th perturbed gap center of `GapTerrainTask` with
default extents. -/
def gapCenterF (g : GaussFam) (seed : ℤ) (i : ℕ) : ℚ :=
  1/2 + (i : ℚ) + 1/10 * g seed i

/-- Index form of the i-th gap width of `GapTerrainTask` with default
extents (20 gaps): `linspace(0.1, 0.5, 20)`. -/
def gapWidthF (i : ℕ) : ℚ := 1/10 + (2/5) * (i : ℚ) / 19

/-- Index form of the left edge of platform i of `GapTerrainTask` with
default extents. -/
def gapPlatMin (g : GaussFam) (seed : ℤ) (i : ℕ) : ℚ :=
  if i = 0 then -20 else gapCenterF g seed (i - 1) + (1/2) * gapWidthF (i - 1)

/-- Index form of the right edge of platform i of `GapTerrainTask` with
default extents. -/
def gapPlatMax (g : GaussFam) (seed : ℤ) (i : ℕ) : ℚ :=
  if i = 20 then 20 else gapCenterF g seed i - (1/2) * gapWidthF i

/-- Index form of the i-th perturbed edge of `SteppedTerrainTask`. -/
def stepEdgeF (g : GaussFam) (seed : ℤ) (i : ℕ) : ℚ :=
  (i : ℚ) * (1/2) + 1/10 * g seed i

/-- Index form of the left edge of platform i of `SteppedTerrainTask`. -/
def stepPlatMin (g : GaussFam) (seed : ℤ) (x_min : ℚ) (i : ℕ) : ℚ :=
  if i = 0 then x_min else stepEdgeF g seed (i - 1)

/-- Index form of the right edge of platform i of `SteppedTerrainTask` with
n edges. -/
def stepPlatMax (g : GaussFam) (seed : ℤ) (x_max : ℚ) (n i : ℕ) : ℚ :=
  if i = n then x_max else stepEdgeF g seed i

/-- The geometry part of claim C3 about `GapTerrainTask` with
`x_min = -20, x_max = 20, seed = 0`: platform count = gap count + 1;
the platform intervals are pairwise non-overlapping along x and each has
non-negative width; the platform widths plus the gap widths rebuild the
full 40-unit span within 1e-6; the gap widths are non-decreasing in
x-order, starting at 0.1 and ending at 0.5. -/
def GapClaimC3 (g : GaussFam) (cfg : TaskConfig) : Prop :=
  (mkGapTerrainTask g (-20) 20 0 cfg).platforms.length =
      (GapTerrainTask.gap_widths 20).length + 1 ∧
  List.Pairwise (fun a b => a.2 ≤ b.1)
      (platformIntervals (mkGapTerrainTask g (-20) 20 0 cfg).platform_x
        (mkGapTerrainTask g (-20) 20 0 cfg).platforms) ∧
  (∀ p ∈ platformIntervals (mkGapTerrainTask g (-20) 20 0 cfg).platform_x
        (mkGapTerrainTask g (-20) 20 0 cfg).platforms, p.1 ≤ p.2) ∧
  |((mkGapTerrainTask g (-20) 20 0 cfg).platforms.map fun p =>
        2 * p.halfX).sum +
      (GapTerrainTask.gap_widths 20).sum - (20 - (-20))| ≤ 1/1000000 ∧
  List.Chain' (fun a b => a ≤ b) (GapTerrainTask.gap_widths 20) ∧
  (GapTerrainTask.gap_widths 20).head? = some (1/10) ∧
  (GapTerrainTask.gap_widths 20).getLast? = some (1/2)

/-- The cover/non-overlap part of claim C4 about `SteppedTerrainTask`:
the platform intervals are contiguous (each right edge equals the next left
edge), have non-negative widths, are pairwise non-overlapping, start at
`x_min` and end at `x_max`. -/
def steppedCovers (g : GaussFam) (x_min x_max : ℚ) (seed : ℤ)
    (cfg : TaskConfig) : Prop :=
  List.Chain' (fun a b => a.2 = b.1)
      (platformIntervals (mkSteppedTerrainTask g x_min x_max seed cfg).platform_x
        (mkSteppedTerrainTask g x_min x_max seed cfg).platforms) ∧
  (∀ p ∈ platformIntervals (mkSteppedTerrainTask g x_min x_max seed cfg).platform_x
        (mkSteppedTerrainTask g x_min x_max seed cfg).platforms, p.1 ≤ p.2) ∧
  List.Pairwise (fun a b => a.2 ≤ b.1)
      (platformIntervals (mkSteppedTerrainTask g x_min x_max seed cfg).platform_x
        (mkSteppedTerrainTask g x_min x_max seed cfg).platforms) ∧
  (platformIntervals (mkSteppedTerrainTask g x_min x_max seed cfg).platform_x
        (mkSteppedTerrainTask g x_min x_max seed cfg).platforms).head?.map
      Prod.fst = some x_min ∧
  (platformIntervals (mkSteppedTerrainTask g x_min x_max seed cfg).platform_x
        (mkSteppedTerrainTask g x_min x_max seed cfg).platforms).getLast?.map
      Prod.snd = some x_max

/-- The vertical part of claim C4 about `SteppedTerrainTask.add_terrain`:
platform k's y coordinate is the running sum `-1 + Σ_{j<k} min(0.015·j, 0.1)·g j`
(the increment drawn after placing platform j has standard deviation
`min(0.015·j, 0.1)`), and the deviation bound `min(0.015·i, 0.1)` is
non-decreasing in i and capped at 0.1. -/
def steppedYProp (g : GaussFam) (x_min x_max : ℚ) (seed : ℤ)
    (cfg : TaskConfig) : Prop :=
  (∀ k,
      k < (SteppedTerrainTask.add_terrain g
            (mkSteppedTerrainTask g x_min x_max seed cfg)).length →
      ((SteppedTerrainTask.add_terrain g
            (mkSteppedTerrainTask g x_min x_max seed cfg))[k]?).map posY =
        some (-1 + ∑ j in Finset.range k,
          min (3/200 * (j : ℚ)) (1/10) * g seed j)) ∧
  (∀ i : ℕ,
      min (3/200 * (i : ℚ)) (1/10) ≤ min (3/200 * ((i : ℚ) + 1)) (1/10) ∧
      min (3/200 * (i : ℚ)) (1/10) ≤ 1/10)

/-- Claim C5 about `HillTerrainTask`: a 97×33 grid, every cell clipped into
[0, 1] and equal to `clip(0.5 + 0.125·g(33i+j), 0, 1)`; one height-field
primitive with friction 0.5 and scale (30, 0.25, 10); `add_terrain` inserts
exactly that primitive at x = 20 (identity orientation, nothing drawn). -/
def HillClaimC5 (g : GaussFam) (seed : ℤ) (cfg : TaskConfig) : Prop :=
  (hillHeights g seed).length = 97 ∧
  (∀ row ∈ hillHeights g seed, row.length = 33) ∧
  (∀ row ∈ hillHeights g seed, ∀ c ∈ row, 0 ≤ c ∧ c ≤ 1) ∧
  (∀ i j, i < 97 → j < 33 →
      ((hillHeights g seed)[i]?.bind fun row => row[j]?) =
        some (clip (1/2 + 1/8 * g seed (33 * i + j)) 0 1)) ∧
  (mkHillTerrainTask g seed cfg).heightfield =
      SceneProp.heightfield (1/2) [30, 1/4, 10] (hillHeights g seed) ∧
  (mkHillTerrainTask g seed cfg).add_terrain =
      [((mkHillTerrainTask g seed cfg).heightfield,
        ⟨[20, -1/4, 0], identityQuat⟩)]

section ListHelpers

variable {α β γ : Type}

/-- Fusing `zipWith` of two maps over the same `range` into one map. -/
theorem zipWith_range_map (f : α → β → γ) (p : ℕ → α) (q : ℕ → β) (n : ℕ) :
    List.zipWith f ((List.range n).map p) ((List.range n).map q) =
      (List.range n).map fun i => f (p i) (q i) := by
  rw [List.zipWith_map, List.zipWith_same]

/-- Prepending an element to a map over `range n` is a map over
`range (n+1)`. -/
theorem cons_range_map (a : α) (h : ℕ → α) (n : ℕ) :
    a :: (List.range n).map h =
      (List.range (n + 1)).map fun i => if i = 0 then a else h (i - 1) := by
  rw [List.range_succ_eq_map, List.map_cons, List.map_map, if_pos rfl]
  congr 1

/-- Appending an element to a map over `range n` is a map over
`range (n+1)`. -/
theorem append_range_map (h : ℕ → α) (b : α) (n : ℕ) :
    (List.range n).map h ++ [b] =
      (List.range (n + 1)).map fun i => if i = n then b else h i := by
  rw [List.range_succ, List.map_append, List.map_singleton, if_pos rfl]
  congr 1
  apply List.map_congr_left
  intro i hi
  rw [List.mem_range] at hi
  rw [if_neg (Nat.ne_of_lt hi)]

/-- Pointwise-equal functions give equal `zipWith`s. -/
theorem zipWith_ext (f f' : α → β → γ) (h : ∀ a b, f a b = f' a b) :
    ∀ (l₁ : List α) (l₂ : List β),
      List.zipWith f l₁ l₂ = List.zipWith f' l₁ l₂ := by
  intro l₁
  induction l₁ with
  | nil => intro l₂; simp
  | cons a t ih => intro l₂; cases l₂ <;> simp [h, ih]

/-- Sum of the elementwise differences of two equally long lists. -/
theorem sum_zipWith_sub : ∀ (l₁ l₂ : List ℚ), l₁.length = l₂.length →
    (List.zipWith (fun mn mx => mx - mn) l₁ l₂).sum = l₂.sum - l₁.sum := by
  intro l₁
  induction l₁ with
  | nil => intro l₂ h; cases l₂ <;> simp_all
  | cons a t ih =>
      intro l₂ h
      cases l₂ with
      | nil => simp at h
      | cons b t₂ =>
          simp only [List.length_cons, Nat.add_right_cancel_iff] at h
          simp only [List.zipWith_cons_cons, List.sum_cons, ih t₂ h]
          ring

/-- The sums of `c + w/2` and `c - w/2` zipped over the same lists differ by
the sum of the `w`s. -/
theorem sum_zipWith_half : ∀ (C W : List ℚ),
    (List.zipWith (fun c w => c + (1/2) * w) C W).sum -
      (List.zipWith (fun c w => c - (1/2) * w) C W).sum =
      (List.zipWith (fun _ w => w) C W).sum := by
  intro C
  induction C with
  | nil => intro W; simp
  | cons c t ih =>
      intro W
      cases W with
      | nil => simp
      | cons w t₂ =>
          simp only [List.zipWith_cons_cons, List.sum_cons]
          have := ih t₂
          ring_nf
          ring_nf at this
          linarith

/-- Zipping away the first list leaves the second when lengths agree. -/
theorem zipWith_snd_eq : ∀ (C W : List ℚ), C.length = W.length →
    List.zipWith (fun _ w => w) C W = W := by
  intro C
  induction C with
  | nil => intro W h; cases W <;> simp_all
  | cons c t ih =>
      intro W h
      cases W with
      | nil => simp at h
      | cons w t₂ =>
          simp only [List.length_cons, Nat.add_right_cancel_iff] at h
          simp [ih t₂ h]

/-- In a chain of intervals with non-negative widths, the left endpoint of
every later interval is at or after the right endpoint of the head. -/
theorem chain_le_of_mem :
    ∀ (l : List (ℚ × ℚ)) (a : ℚ × ℚ), (∀ p ∈ l, p.1 ≤ p.2) →
      List.Chain (fun u v => u.2 ≤ v.1) a l → ∀ b ∈ l, a.2 ≤ b.1 := by
  intro l
  induction l with
  | nil => intro a _ _ b hb; simp at hb
  | cons c t ih =>
      intro a hw hc b hb
      rw [List.chain_cons] at hc
      rcases List.mem_cons.mp hb with h | h
      · subst h; exact hc.1
      · have hcw : c.1 ≤ c.2 := hw c (List.mem_cons_self c t)
        have := ih c (fun p hp => hw p (List.mem_cons_of_mem c hp)) hc.2 b h
        linarith [hc.1]

/-- Consecutive non-overlap plus non-negative widths gives pairwise
non-overlap. -/
theorem pairwise_of_chain_nonoverlap :
    ∀ (l : List (ℚ × ℚ)), (∀ p ∈ l, p.1 ≤ p.2) →
      List.Chain' (fun u v => u.2 ≤ v.1) l →
      List.Pairwise (fun u v => u.2 ≤ v.1) l := by
  intro l
  induction l with
  | nil => intro _ _; exact List.Pairwise.nil
  | cons a t ih =>
      intro hw hc
      have hchain : List.Chain (fun u v => u.2 ≤ v.1) a t := hc
      constructor
      · exact chain_le_of_mem t a
          (fun p hp => hw p (List.mem_cons_of_mem a hp)) hchain
      · exact ih (fun p hp => hw p (List.mem_cons_of_mem a hp)) hc.tail

end ListHelpers

/-- `np.arange(0.5, 20, 1.0)` has 20 elements. -/
theorem arangeLen_gap20 : arangeLen (1/2) 20 1 = 20 := by
  have h : ((20:ℚ) - 1/2) / 1 = 39/2 := by norm_num
  have hc : ⌈(39/2 : ℚ)⌉ = 20 := by
    rw [Int.ceil_eq_iff]
    norm_num
  rw [arangeLen, h, hc]; rfl

/-- `np.arange(0.0, 20, 0.5)` has 40 elements. -/
theorem arangeLen_step20 : arangeLen 0 20 (1/2) = 40 := by
  have h : ((20:ℚ) - 0) / (1/2) = 40 := by norm_num
  rw [arangeLen, h]
  norm_num
  rfl

/-- `np.arange(0.0, m/2, 0.5)` has exactly m elements when the upper bound is
a half-integer. -/
theorem arangeLen_half (m : ℕ) : arangeLen 0 ((m:ℚ) * (1/2)) (1/2) = m := by
  have h : ((m:ℚ) * (1/2) - 0) / (1/2) = (m:ℚ) := by ring
  rw [arangeLen, h, Int.ceil_natCast, Int.toNat_natCast]

/-- Index form of the perturbed gap centers at the default extent. -/
theorem gap_centers_repr (g : GaussFam) (seed : ℤ) :
    GapTerrainTask.gap_centers g seed 20 =
      (List.range 20).map (gapCenterF g seed) := by
  unfold GapTerrainTask.gap_centers arange RandomState.normalN RandomState.create
  simp only [List.length_map, List.length_range, arangeLen_gap20]
  rw [zipWith_range_map]
  apply List.map_congr_left
  intro i _
  simp only [Nat.zero_add, gapCenterF]
  ring

/-- Index form of the gap widths at the default extent. -/
theorem gap_widths_repr :
    GapTerrainTask.gap_widths 20 = (List.range 20).map gapWidthF := by
  unfold GapTerrainTask.gap_widths linspace arange
  simp only [List.length_map, List.length_range, arangeLen_gap20]
  apply List.map_congr_left
  intro i _
  rw [gapWidthF]
  norm_num

/-- Index form of the gap platform left edges at the default extents. -/
theorem gap_pmin_repr (g : GaussFam) (seed : ℤ) :
    GapTerrainTask.platform_x_min g seed (-20) 20 =
      (List.range 21).map (gapPlatMin g seed) := by
  unfold GapTerrainTask.platform_x_min
  rw [gap_centers_repr, gap_widths_repr, zipWith_range_map, cons_range_map]
  rfl

/-- Index form of the gap platform right edges at the default extents. -/
theorem gap_pmax_repr (g : GaussFam) (seed : ℤ) :
    GapTerrainTask.platform_x_max g seed 20 =
      (List.range 21).map (gapPlatMax g seed) := by
  unfold GapTerrainTask.platform_x_max
  rw [gap_centers_repr, gap_widths_repr, zipWith_range_map, append_range_map]
  rfl

/-- Index form of the stepped edges when `x_max = m/2`. -/
theorem step_edges_repr (g : GaussFam) (seed : ℤ) (m : ℕ) :
    SteppedTerrainTask.edge_x g seed ((m:ℚ) * (1/2)) =
      (List.range m).map (stepEdgeF g seed) := by
  unfold SteppedTerrainTask.edge_x arange RandomState.normalN RandomState.create
  simp only [List.length_map, List.length_range, arangeLen_half]
  rw [zipWith_range_map]
  apply List.map_congr_left
  intro i _
  simp only [Nat.zero_add, stepEdgeF]
  ring

/-- Index form of the stepped platform left edges when `x_max = m/2`. -/
theorem step_pmin_repr (g : GaussFam) (seed : ℤ) (x_min : ℚ) (m : ℕ) :
    SteppedTerrainTask.platform_x_min g seed x_min ((m:ℚ) * (1/2)) =
      (List.range (m + 1)).map (stepPlatMin g seed x_min) := by
  unfold SteppedTerrainTask.platform_x_min
  rw [step_edges_repr, cons_range_map]
  rfl

/-- Index form of the stepped platform right edges when `x_max = m/2`. -/
theorem step_pmax_repr (g : GaussFam) (seed : ℤ) (m : ℕ) :
    SteppedTerrainTask.platform_x_max g seed ((m:ℚ) * (1/2)) =
      (List.range (m + 1)).map (stepPlatMax g seed ((m:ℚ) * (1/2)) m) := by
  unfold SteppedTerrainTask.platform_x_max
  rw [step_edges_repr, append_range_map]
  rfl

/-- The platform intervals of the default-extent gap task, in index form. -/
theorem gap_intervals_repr (g : GaussFam) (seed : ℤ) (cfg : TaskConfig) :
    platformIntervals (mkGapTerrainTask g (-20) 20 seed cfg).platform_x
        (mkGapTerrainTask g (-20) 20 seed cfg).platforms =
      (List.range 21).map fun i => (gapPlatMin g seed i, gapPlatMax g seed i) := by
  simp only [platformIntervals, mkGapTerrainTask, gap_pmin_repr, gap_pmax_repr,
    zipWith_range_map, List.map_map, Function.comp_def]
  apply List.map_congr_left
  intro i _
  simp only [SceneProp.halfX, SceneProp.boxHalfExtents, List.getD_cons_zero,
    Prod.mk.injEq]
  exact ⟨by ring, by ring⟩

/-- The platform intervals of the stepped task with `x_max = m/2`, in index
form. -/
theorem step_intervals_repr (g : GaussFam) (seed : ℤ) (x_min : ℚ) (m : ℕ)
    (cfg : TaskConfig) :
    platformIntervals
        (mkSteppedTerrainTask g x_min ((m:ℚ) * (1/2)) seed cfg).platform_x
        (mkSteppedTerrainTask g x_min ((m:ℚ) * (1/2)) seed cfg).platforms =
      (List.range (m + 1)).map fun i =>
        (stepPlatMin g seed x_min i,
          stepPlatMax g seed ((m:ℚ) * (1/2)) m i) := by
  simp only [platformIntervals, mkSteppedTerrainTask, step_pmin_repr,
    step_pmax_repr, zipWith_range_map, List.map_map, Function.comp_def]
  apply List.map_congr_left
  intro i _
  simp only [SceneProp.halfX, SceneProp.boxHalfExtents, List.getD_cons_zero,
    Prod.mk.injEq]
  exact ⟨by ring, by ring⟩

/-- The gap centers and gap widths have the same length. -/
theorem gap_centers_widths_length (g : GaussFam) (seed : ℤ) (x_max : ℚ) :
    (GapTerrainTask.gap_centers g seed x_max).length =
      (GapTerrainTask.gap_widths x_max).length := by
  simp [GapTerrainTask.gap_centers, GapTerrainTask.gap_widths,
    RandomState.normalN, linspace, arange]

/-- The platform x-span plus the gap widths rebuild the full extent exactly:
summing the widths of all platforms and all gaps of a `GapTerrainTask` gives
`x_max - x_min`, for every draw family, seed and extents. -/
theorem gap_span (g : GaussFam) (seed : ℤ) (x_min x_max : ℚ)
    (cfg : TaskConfig) :
    ((mkGapTerrainTask g x_min x_max seed cfg).platforms.map fun p =>
        2 * p.halfX).sum + (GapTerrainTask.gap_widths x_max).sum =
      x_max - x_min := by
  have hCW := gap_centers_widths_length g seed x_max
  have hlen : (GapTerrainTask.platform_x_min g seed x_min x_max).length =
      (GapTerrainTask.platform_x_max g seed x_max).length := by
    simp only [GapTerrainTask.platform_x_min, GapTerrainTask.platform_x_max,
      List.length_cons, List.length_append, List.length_zipWith,
      List.length_singleton, List.length_nil]
  have h1 : (mkGapTerrainTask g x_min x_max seed cfg).platforms.map
      (fun p => 2 * p.halfX) =
      List.zipWith (fun mn mx => mx - mn)
        (GapTerrainTask.platform_x_min g seed x_min x_max)
        (GapTerrainTask.platform_x_max g seed x_max) := by
    simp only [mkGapTerrainTask, List.map_map, List.map_zipWith]
    apply zipWith_ext
    intro a b
    simp only [Function.comp_def, SceneProp.halfX, SceneProp.boxHalfExtents,
      List.getD_cons_zero]
    ring
  rw [h1, sum_zipWith_sub _ _ hlen]
  simp only [GapTerrainTask.platform_x_min, GapTerrainTask.platform_x_max,
    List.sum_cons, List.sum_append, List.sum_singleton, List.sum_nil]
  have h2 := sum_zipWith_half (GapTerrainTask.gap_centers g seed x_max)
    (GapTerrainTask.gap_widths x_max)
  rw [zipWith_snd_eq _ _ hCW] at h2
  linarith

/-- `gapLoop` inserts one entry per platform. -/
theorem gapLoop_length (g : GaussFam) (seed : ℤ) :
    ∀ (l : List (ℚ × SceneProp)) (i : ℕ), (gapLoop g seed l i).length = l.length
  | [], _ => rfl
  | (x, p) :: rest, i => by
      simp [gapLoop, gapLoop_length g seed rest (i + 1)]

/-- `steppedLoop` inserts one entry per platform. -/
theorem steppedLoop_length (g : GaussFam) (seed : ℤ) :
    ∀ (l : List (ℚ × SceneProp)) (i : ℕ) (y : ℚ),
      (steppedLoop g seed l i y).length = l.length
  | [], _, _ => rfl
  | (x, p) :: rest, i, y => by
      simp [steppedLoop, steppedLoop_length g seed rest (i + 1)]

/-- Entry k of `gapLoop` started at counter i places platform k at
`y = -1 + 0.01·(i+k)·g(i+k)`. -/
theorem gapLoop_getElem (g : GaussFam) (seed : ℤ) :
    ∀ (l : List (ℚ × SceneProp)) (i k : ℕ),
      (gapLoop g seed l i)[k]? = (l[k]?).map fun xp =>
        (xp.2,
          ⟨[xp.1, -1 + (1/100 * ((i + k : ℕ) : ℚ)) * g seed (i + k), 0],
            ⟨1, 0, 0, 0⟩⟩)
  | [], i, k => by simp [gapLoop]
  | (x, p) :: rest, i, 0 => by simp [gapLoop]
  | (x, p) :: rest, i, k + 1 => by
      have ih := gapLoop_getElem g seed rest (i + 1) k
      have hn : i + 1 + k = i + (k + 1) := by omega
      simp only [gapLoop, List.getElem?_cons_succ]
      rw [ih, hn]

/-- Entry k of `steppedLoop` started at counter i and height y places
platform k at the running height `y + Σ_{j<k} min(0.015·(i+j), 0.1)·g(i+j)`. -/
theorem steppedLoop_getElem (g : GaussFam) (seed : ℤ) :
    ∀ (l : List (ℚ × SceneProp)) (i : ℕ) (y : ℚ) (k : ℕ),
      (steppedLoop g seed l i y)[k]? = (l[k]?).map fun xp =>
        (xp.2,
          ⟨[xp.1, y + ∑ j in Finset.range k,
              (0 + min (3/200 * ((i + j : ℕ) : ℚ)) (1/10) * g seed (i + j)), 0],
            ⟨1, 0, 0, 0⟩⟩)
  | [], i, y, k => by simp [steppedLoop]
  | (x, p) :: rest, i, y, 0 => by simp [steppedLoop]
  | (x, p) :: rest, i, y, k + 1 => by
      have ih := steppedLoop_getElem g seed rest (i + 1)
        (y + (0 + min (3/200 * (i : ℚ)) (1/10) * g seed i)) k
      simp only [steppedLoop, List.getElem?_cons_succ]
      rw [ih]
      congr 1
      funext xp
      simp only [Prod.mk.injEq, Placement.mk.injEq, List.cons.injEq,
        and_true, true_and]
      rw [Finset.sum_range_succ']
      have hidx : ∀ j : ℕ, i + 1 + j = i + (j + 1) := fun j => by omega
      rw [Finset.sum_congr rfl fun j _ => by rw [hidx j]]
      simp only [Nat.add_zero]
      ring

/-- C1: terrain generation and perturbation are reproducible: for every draw
family, two Task instances constructed with the same terrain seed (even with
different unrelated configuration) insert identical ordered (prop, placement)
sequences on every invocation of `add_terrain`, for each of the six variants;
and two `add_noise` calls with the same noise_seed, force_std, torque_std and
step index apply identical force and torque vectors, independent of any
prior calls (the model is a pure function reseeded at each call). -/
theorem C1_reproducibility (g : GaussFam) (cfg cfg' : TaskConfig) (seed : ℤ)
    (x_min x_max : ℚ) (k : ℕ)
    (h1 : cfg.noise_seed = cfg'.noise_seed)
    (h2 : cfg.force_std = cfg'.force_std)
    (h3 : cfg.torque_std = cfg'.torque_std) :
    (mkFlatTerrainTask cfg).add_terrain = (mkFlatTerrainTask cfg').add_terrain ∧
    (mkFrozenLakeTask cfg).add_terrain = (mkFrozenLakeTask cfg').add_terrain ∧
    RidgedTerrainTask.add_terrain g (mkRidgedTerrainTask seed cfg) =
      RidgedTerrainTask.add_terrain g (mkRidgedTerrainTask seed cfg') ∧
    GapTerrainTask.add_terrain g (mkGapTerrainTask g x_min x_max seed cfg) =
      GapTerrainTask.add_terrain g (mkGapTerrainTask g x_min x_max seed cfg') ∧
    SteppedTerrainTask.add_terrain g
        (mkSteppedTerrainTask g x_min x_max seed cfg) =
      SteppedTerrainTask.add_terrain g
        (mkSteppedTerrainTask g x_min x_max seed cfg') ∧
    HillTerrainTask.add_terrain (mkHillTerrainTask g seed cfg) =
      HillTerrainTask.add_terrain (mkHillTerrainTask g seed cfg') ∧
    ForwardSpeedTask.add_noise g (mkForwardSpeedTask cfg) 1 k =
      ForwardSpeedTask.add_noise g (mkForwardSpeedTask cfg') 1 k := by
  refine ⟨rfl, rfl, rfl, rfl, rfl, rfl, ?_⟩
  simp [ForwardSpeedTask.add_noise, mkForwardSpeedTask, h1, h2, h3]

/-- Witness for C1 at a concrete input: draw family 0, default config on
both sides, seed 0, the default extents and step index 0. -/
theorem C1_reproducibility_witness :
    (mkFlatTerrainTask {}).add_terrain = (mkFlatTerrainTask {}).add_terrain ∧
    (mkFrozenLakeTask {}).add_terrain = (mkFrozenLakeTask {}).add_terrain ∧
    RidgedTerrainTask.add_terrain gaussZero (mkRidgedTerrainTask 0 {}) =
      RidgedTerrainTask.add_terrain gaussZero (mkRidgedTerrainTask 0 {}) ∧
    GapTerrainTask.add_terrain gaussZero
        (mkGapTerrainTask gaussZero (-20) 20 0 {}) =
      GapTerrainTask.add_terrain gaussZero
        (mkGapTerrainTask gaussZero (-20) 20 0 {}) ∧
    SteppedTerrainTask.add_terrain gaussZero
        (mkSteppedTerrainTask gaussZero (-20) 20 0 {}) =
      SteppedTerrainTask.add_terrain gaussZero
        (mkSteppedTerrainTask gaussZero (-20) 20 0 {}) ∧
    HillTerrainTask.add_terrain (mkHillTerrainTask gaussZero 0 {}) =
      HillTerrainTask.add_terrain (mkHillTerrainTask gaussZero 0 {}) ∧
    ForwardSpeedTask.add_noise gaussZero (mkForwardSpeedTask {}) 1 0 =
      ForwardSpeedTask.add_noise gaussZero (mkForwardSpeedTask {}) 1 0 :=
  C1_reproducibility gaussZero {} {} 0 (-20) 20 0 rfl rfl rfl

/-- C2: with exactly one robot in the scene, `add_noise` seeds a fresh
stream with `noise_seed + time_step_idx`, draws the three force components
(draws 0-2, each `force_std` times a standard-normal draw), then the three
torque components (draws 3-5, each `torque_std` times a standard-normal
draw), and applies exactly one force/torque pair, to body 0 link 0. -/
theorem C2_noise_model (g : GaussFam) (cfg : TaskConfig) (k : ℕ) :
    ForwardSpeedTask.add_noise g (mkForwardSpeedTask cfg) 1 k =
      some [(0, 0,
        [cfg.force_std * g (cfg.noise_seed + (k : ℤ)) 0,
         cfg.force_std * g (cfg.noise_seed + (k : ℤ)) 1,
         cfg.force_std * g (cfg.noise_seed + (k : ℤ)) 2],
        [cfg.torque_std * g (cfg.noise_seed + (k : ℤ)) 3,
         cfg.torque_std * g (cfg.noise_seed + (k : ℤ)) 4,
         cfg.torque_std * g (cfg.noise_seed + (k : ℤ)) 5])] := by
  simp [ForwardSpeedTask.add_noise, mkForwardSpeedTask, RandomState.normalN,
    RandomState.create, List.range_succ]

/-- C8: `add_noise` requires exactly one controlled body: with zero robots
or more than one it fails the assertion and applies nothing; with exactly
one robot it succeeds. -/
theorem C8_robot_count_precondition (g : GaussFam) (cfg : TaskConfig)
    (robot_count k : ℕ) :
    (robot_count ≠ 1 →
      ForwardSpeedTask.add_noise g (mkForwardSpeedTask cfg) robot_count k =
        none) ∧
    (robot_count = 1 →
      (ForwardSpeedTask.add_noise g (mkForwardSpeedTask cfg) robot_count k
        ).isSome = true) := by
  constructor
  · intro h
    simp [ForwardSpeedTask.add_noise, h]
  · intro h
    subst h
    simp [ForwardSpeedTask.add_noise]

/-- C6: a default `FlatTerrainTask` inserts exactly one prop, a BOX of
half-extents [40, 1, 10] and friction 0.5, at (0, -1, 0) with the identity
orientation (its `add_terrain` consumes no random draws: it does not take a
draw family at all). -/
theorem C6_flat_terrain (cfg : TaskConfig) :
    (mkFlatTerrainTask cfg).add_terrain =
      [(SceneProp.box 0 (1/2) [40, 1, 10] none,
        ⟨[0, -1, 0], identityQuat⟩)] := rfl

/-- Counterexample to C7 as stated: the frozen-lake floor's half-extents are
(20, 1, 10), not (20, 0.5, 10). -/
theorem C7_frozen_lake_counterexample :
    (mkFrozenLakeTask {}).floor.boxHalfExtents = [20, 1, 10] ∧
    ¬ (mkFrozenLakeTask {}).floor.boxHalfExtents = [20, 1/2, 10] := by
  constructor
  · rfl
  · intro h
    simp [mkFrozenLakeTask, SceneProp.boxHalfExtents] at h

/-- C7 amended: `FrozenLakeTask.add_terrain` inserts a single box placed
exactly like the flat task's floor (same position (0, -1, 0) and identity
orientation, no randomness), with half-extents (20, 1, 10), friction 0.05
and the color tint [0.8, 0.9, 1.0]. -/
theorem C7_frozen_lake (cfg : TaskConfig) :
    (mkFrozenLakeTask cfg).add_terrain =
      [(SceneProp.box 0 (1/20) [20, 1, 10] (some [4/5, 9/10, 1]),
        ⟨[0, -1, 0], identityQuat⟩)] ∧
    (mkFrozenLakeTask cfg).add_terrain.map Prod.snd =
      (mkFlatTerrainTask cfg).add_terrain.map Prod.snd :=
  ⟨rfl, rfl⟩

/-- Counterexample to C9 as stated: `result_bound` is not a constructor
parameter — no choice of constructor arguments produces a task whose
`result_bound` differs from the hard-coded 10.0. -/
theorem C9_result_bound_counterexample :
    ¬ ∃ cfg : TaskConfig, (mkForwardSpeedTask cfg).result_bound ≠ 10 := by
  rintro ⟨cfg, h⟩
  exact h rfl

/-- C9 amended: `result_bound` is a fixed attribute set to 10.0 by the base
constructor (it is not a keyword parameter); it stays fixed after
construction, and no core operation depends on it or fails when a score
exceeds it (`add_noise` behaves identically whatever `result_bound` holds). -/
theorem C9_result_bound (cfg : TaskConfig) (g : GaussFam) (b : ℚ)
    (robot_count k : ℕ) :
    (mkForwardSpeedTask cfg).result_bound = 10 ∧
    ForwardSpeedTask.add_noise g
        { mkForwardSpeedTask cfg with result_bound := b } robot_count k =
      ForwardSpeedTask.add_noise g (mkForwardSpeedTask cfg) robot_count k :=
  ⟨rfl, rfl⟩

/-- The default-extent gap task zips 21 platform positions with 21 props. -/
theorem gap_zip_length (g : GaussFam) (seed : ℤ) (cfg : TaskConfig) :
    ((mkGapTerrainTask g (-20) 20 seed cfg).platform_x.zip
      (mkGapTerrainTask g (-20) 20 seed cfg).platforms).length = 21 := by
  simp [mkGapTerrainTask, List.length_zip, gap_pmin_repr, gap_pmax_repr,
    zipWith_range_map]

/-- The default-extent stepped task zips 41 platform positions with 41
props. -/
theorem step_zip_length (g : GaussFam) (seed : ℤ) (cfg : TaskConfig) :
    ((mkSteppedTerrainTask g (-20) 20 seed cfg).platform_x.zip
      (mkSteppedTerrainTask g (-20) 20 seed cfg).platforms).length = 41 := by
  simp [mkSteppedTerrainTask, List.length_zip, List.length_zipWith,
    List.length_map, List.length_cons, List.length_append,
    SteppedTerrainTask.platform_x_min, SteppedTerrainTask.platform_x_max,
    SteppedTerrainTask.edge_x, RandomState.normalN, arange]
  have h2 : (2⁻¹ : ℚ) = 1/2 := by norm_num
  rw [h2, arangeLen_step20]

/-- C5: for every draw family and seed, `HillTerrainTask` builds a 97×33
height grid, every cell clipped into [0, 1] and equal to
`clip(0.5 + 0.125·g(33i+j), 0, 1)`; it wraps the grid in one height-field
primitive with friction 0.5 and scale (30, 0.25, 10), and `add_terrain`
inserts exactly that primitive at x = 20. -/
theorem C5_hill_heightfield (g : GaussFam) (seed : ℤ) (cfg : TaskConfig) :
    HillClaimC5 g seed cfg := by
  unfold HillClaimC5
  refine ⟨by simp [hillHeights], ?_, ?_, ?_, rfl, rfl⟩
  · intro row hrow
    simp only [hillHeights, List.mem_map, List.mem_range] at hrow
    obtain ⟨i, -, rfl⟩ := hrow
    simp
  · intro row hrow c hc
    simp only [hillHeights, List.mem_map, List.mem_range] at hrow
    obtain ⟨i, -, rfl⟩ := hrow
    simp only [List.mem_map, List.mem_range] at hc
    obtain ⟨j, -, rfl⟩ := hc
    unfold clip
    exact ⟨le_min (le_max_right _ _) zero_le_one, min_le_right _ _⟩
  · intro i j hi hj
    simp [hillHeights, List.getElem?_map, List.getElem?_range hi,
      List.getElem?_range hj]

/-- C10: for every draw family, seed and configuration (at the default
extents), gap platform 0 is placed at y exactly -1 (its jitter has deviation
0.01·0 = 0), and stepped platforms 0 and 1 are both placed at y exactly -1
(the first random-walk increment has deviation min(0.015·0, 0.1) = 0). -/
theorem C10_zero_deviation_platforms (g : GaussFam) (seed : ℤ)
    (cfg : TaskConfig) :
    ((GapTerrainTask.add_terrain g
        (mkGapTerrainTask g (-20) 20 seed cfg))[0]?).map posY = some (-1) ∧
    ((SteppedTerrainTask.add_terrain g
        (mkSteppedTerrainTask g (-20) 20 seed cfg))[0]?).map posY = some (-1) ∧
    ((SteppedTerrainTask.add_terrain g
        (mkSteppedTerrainTask g (-20) 20 seed cfg))[1]?).map posY =
      some (-1) := by
  have hzg := gap_zip_length g seed cfg
  have hzs := step_zip_length g seed cfg
  refine ⟨?_, ?_, ?_⟩
  · rw [GapTerrainTask.add_terrain,
      List.getElem?_append_left (by rw [gapLoop_length]; omega),
      gapLoop_getElem, List.getElem?_eq_getElem (by omega)]
    simp [posY, List.getD_cons_succ, List.getD_cons_zero]
  · rw [SteppedTerrainTask.add_terrain, steppedLoop_getElem,
      List.getElem?_eq_getElem (by omega)]
    simp [posY, List.getD_cons_succ, List.getD_cons_zero]
  · rw [SteppedTerrainTask.add_terrain, steppedLoop_getElem,
      List.getElem?_eq_getElem (by omega)]
    simp [posY, List.getD_cons_succ, List.getD_cons_zero,
      Finset.sum_range_one, min_def]

/-- C3: for the gap task with x_min = -20, x_max = 20, seed = 0, provided
each of the 20 perturbation draws of stream 0 lies within 2.5 standard
deviations (|g| ≤ 5/2, i.e. each center moves by at most 0.25): the platform
count is the gap count plus one, the platform boxes are pairwise
non-overlapping along x with non-negative widths, the platform widths plus
the gap widths rebuild the [-20, 20] span within 1e-6 (exactly, in fact);
and the gap widths — which the constructor builds independently of the
seed — are non-decreasing in x-order, 0.1 at the first gap and 0.5 at the
last. -/
theorem C3_gap_default_geometry (g : GaussFam) (cfg : TaskConfig)
    (hb : ∀ i, i < 20 → |g 0 i| ≤ 5/2) : GapClaimC3 g cfg := by
  have hwidths : ∀ p ∈ platformIntervals
      (mkGapTerrainTask g (-20) 20 0 cfg).platform_x
      (mkGapTerrainTask g (-20) 20 0 cfg).platforms, p.1 ≤ p.2 := by
    intro p hp
    rw [gap_intervals_repr] at hp
    simp only [List.mem_map, List.mem_range] at hp
    obtain ⟨i, hi, rfl⟩ := hp
    by_cases h0 : i = 0
    · subst h0
      have hg := abs_le.mp (hb 0 (by norm_num))
      rw [gapPlatMin, if_pos rfl, gapPlatMax, if_neg (by norm_num)]
      unfold gapCenterF gapWidthF
      push_cast
      linarith [hg.1]
    · by_cases h20 : i = 20
      · subst h20
        have hg := abs_le.mp (hb 19 (by norm_num))
        rw [gapPlatMin, if_neg h0, gapPlatMax, if_pos rfl]
        norm_num
        unfold gapCenterF gapWidthF
        push_cast
        linarith [hg.2]
      · have h1 : 1 ≤ i := Nat.one_le_iff_ne_zero.mpr h0
        have h19 : i ≤ 19 := by omega
        have hga := abs_le.mp (hb (i - 1) (by omega))
        have hgb := abs_le.mp (hb i (by omega))
        rw [gapPlatMin, if_neg h0, gapPlatMax, if_neg h20]
        unfold gapCenterF gapWidthF
        have hcast : ((i - 1 : ℕ) : ℚ) = (i : ℚ) - 1 := by
          push_cast [h1]
          ring
        rw [hcast]
        have hle : (i : ℚ) ≤ 19 := by exact_mod_cast h19
        linarith [hga.1, hga.2, hgb.1, hgb.2]
  have hchain : List.Chain' (fun u v => u.2 ≤ v.1)
      (platformIntervals (mkGapTerrainTask g (-20) 20 0 cfg).platform_x
        (mkGapTerrainTask g (-20) 20 0 cfg).platforms) := by
    rw [gap_intervals_repr, List.chain'_map]
    refine (List.chain'_range_succ _ 20).mpr ?_
    intro m hm
    have hA : ¬ (m = 20) := by omega
    dsimp only
    rw [gapPlatMax, if_neg hA, gapPlatMin, if_neg (Nat.succ_ne_zero m)]
    simp only [Nat.succ_sub_one]
    have hm0 : (0:ℚ) ≤ (m : ℚ) := Nat.cast_nonneg m
    have hw : (0:ℚ) ≤ 1/10 + 2/5 * (m : ℚ) / 19 := by positivity
    unfold gapWidthF
    linarith
  unfold GapClaimC3
  refine ⟨?_, ?_, hwidths, ?_, ?_, ?_, ?_⟩
  · simp [mkGapTerrainTask, gap_pmin_repr, gap_pmax_repr, zipWith_range_map,
      GapTerrainTask.gap_widths, linspace, arange]
    have h2 : (2⁻¹:ℚ) = 1/2 := by norm_num
    rw [h2]
    exact arangeLen_gap20
  · exact pairwise_of_chain_nonoverlap _ hwidths hchain
  · have h := gap_span g 0 (-20) 20 cfg
    rw [h]
    norm_num
  · rw [gap_widths_repr, List.chain'_map]
    refine (List.chain'_range_succ _ 19).mpr ?_
    intro m hm
    unfold gapWidthF
    push_cast
    linarith
  · rw [gap_widths_repr]
    rw [List.range_succ_eq_map]
    simp [gapWidthF]
  · rw [gap_widths_repr]
    rw [List.range_succ, List.map_append, List.map_singleton]
    rw [List.getLast?_concat]
    norm_num [gapWidthF]

/-- Witness for C3 at the all-zero draw family and the default
configuration. -/
theorem C3_gap_default_geometry_witness : GapClaimC3 gaussZero {} :=
  C3_gap_default_geometry gaussZero {} (fun i _ => by norm_num [gaussZero])

/-- Counterexample to C4 as stated: with x_min = 5 and x_max = 0 (and any
draws — none are made, since the edge list is empty) the stepped task builds
a single inverted platform spanning [5, 0], which is not a non-overlapping
cover of anything. -/
theorem C4_stepped_counterexample : ¬ steppedCovers gaussZero 5 0 0 {} := by
  intro h
  have hw := h.2.1
  have hlen0 : arangeLen 0 0 (1/2) = 0 := by
    rw [arangeLen]
    norm_num
  have hivs : platformIntervals
      (mkSteppedTerrainTask gaussZero 5 0 0 {}).platform_x
      (mkSteppedTerrainTask gaussZero 5 0 0 {}).platforms =
      [((5:ℚ), (0:ℚ))] := by
    unfold platformIntervals mkSteppedTerrainTask
      SteppedTerrainTask.platform_x_min SteppedTerrainTask.platform_x_max
      SteppedTerrainTask.edge_x arange RandomState.normalN RandomState.create
    rw [hlen0]
    simp [SceneProp.halfX, SceneProp.boxHalfExtents]
    norm_num
  rw [hivs] at hw
  have h5 := hw (5, 0) (by simp)
  norm_num at h5

/-- C4 amended: for every draw family, seed and configuration, whenever
`x_min ≤ -1/4`, `x_max = m/2` for a positive integer m, and each edge
perturbation stays within 2.5 standard deviations (|g| ≤ 5/2, i.e. each
edge moves by at most 0.25), the stepped platforms are contiguous,
non-overlapping and cover [x_min, x_max] exactly; and platform k's y
coordinate is the running sum starting at -1 whose increment after platform
j has the deviation bound min(0.015·j, 0.1), which is non-decreasing in j
and capped at 0.1. -/
theorem C4_stepped_cover_and_heights (g : GaussFam) (seed : ℤ)
    (cfg : TaskConfig) (m : ℕ) (x_min : ℚ) (hm : 0 < m)
    (hx : x_min ≤ -(1/4)) (hb : ∀ i, i < m → |g seed i| ≤ 5/2) :
    steppedCovers g x_min ((m:ℚ) * (1/2)) seed cfg ∧
    steppedYProp g x_min ((m:ℚ) * (1/2)) seed cfg := by
  have hEmono : ∀ j, j + 1 < m →
      stepEdgeF g seed j ≤ stepEdgeF g seed (j + 1) := by
    intro j hj
    have h1 := abs_le.mp (hb j (by omega))
    have h2 := abs_le.mp (hb (j + 1) hj)
    unfold stepEdgeF
    push_cast
    linarith
  have hwid : ∀ i, i < m + 1 →
      stepPlatMin g seed x_min i ≤ stepPlatMax g seed ((m:ℚ) * (1/2)) m i := by
    intro i hi
    by_cases h0 : i = 0
    · subst h0
      rw [stepPlatMin, if_pos rfl, stepPlatMax, if_neg (by omega)]
      have h1 := abs_le.mp (hb 0 hm)
      unfold stepEdgeF
      push_cast
      linarith
    · by_cases hM : i = m
      · subst hM
        rw [stepPlatMin, if_neg h0, stepPlatMax, if_pos rfl]
        have h1 := abs_le.mp (hb (i - 1) (by omega))
        unfold stepEdgeF
        rw [Nat.cast_sub (by omega : 1 ≤ i)]
        push_cast
        linarith
      · rw [stepPlatMin, if_neg h0, stepPlatMax, if_neg hM]
        have hE := hEmono (i - 1) (by omega)
        rw [show i - 1 + 1 = i by omega] at hE
        exact hE
  have hcontig : List.Chain' (fun a b => a.2 = b.1)
      ((List.range (m + 1)).map fun i =>
        (stepPlatMin g seed x_min i,
          stepPlatMax g seed ((m:ℚ) * (1/2)) m i)) := by
    rw [List.chain'_map]
    refine (List.chain'_range_succ _ m).mpr ?_
    intro k hk
    have hA : ¬ (k = m) := by omega
    dsimp only
    rw [stepPlatMax, if_neg hA, stepPlatMin, if_neg (Nat.succ_ne_zero k)]
    simp [Nat.succ_sub_one]
  constructor
  · unfold steppedCovers
    rw [step_intervals_repr]
    refine ⟨hcontig, ?_, ?_, ?_, ?_⟩
    · intro p hp
      simp only [List.mem_map, List.mem_range] at hp
      obtain ⟨i, hi, rfl⟩ := hp
      exact hwid i hi
    · refine pairwise_of_chain_nonoverlap _ ?_ ?_
      · intro p hp
        simp only [List.mem_map, List.mem_range] at hp
        obtain ⟨i, hi, rfl⟩ := hp
        exact hwid i hi
      · exact hcontig.imp fun _ _ hab => le_of_eq hab
    · rw [List.range_succ_eq_map]
      simp [stepPlatMin]
    · rw [List.range_succ, List.map_append, List.map_singleton,
        List.getLast?_concat]
      simp [stepPlatMax]
  · unfold steppedYProp
    constructor
    · intro k hk
      rw [SteppedTerrainTask.add_terrain] at hk ⊢
      rw [steppedLoop_length] at hk
      rw [steppedLoop_getElem, List.getElem?_eq_getElem hk]
      simp [posY, List.getD_cons_succ, List.getD_cons_zero,
        mkSteppedTerrainTask]
    · intro i
      constructor
      · refine min_le_min ?_ le_rfl
        have h0 : (0:ℚ) ≤ 3/200 := by norm_num
        have h1 : (i:ℚ) ≤ (i:ℚ) + 1 := by linarith
        exact mul_le_mul_of_nonneg_left h1 h0
      · exact min_le_right _ _

/-- Witness for C4 at the all-zero draw family, seed 0, default
configuration, x_min = -20 and x_max = 40/2 = 20. -/
theorem C4_stepped_cover_and_heights_witness :
    steppedCovers gaussZero (-20) (((40:ℕ):ℚ) * (1/2)) 0 {} ∧
    steppedYProp gaussZero (-20) (((40:ℕ):ℚ) * (1/2)) 0 {} :=
  C4_stepped_cover_and_heights gaussZero 0 {} 40 (-20) (by norm_num)
    (by norm_num) (fun i _ => by norm_num [gaussZero])
